import Mathlib

/-!
Verification of the tier-transition and exclusion-reconciliation engine of
`archive-cli.py` (classes `BlobOperator`, `S3Operator`, `AzureBlobOperator`).

Embedding conventions:

* Blob names are path-like strings; we model them as their list of `/`-separated
  segments (`BlobName := List String`), so the string `"a/b/c"` is `["a","b","c"]`
  and a double slash is an empty segment.  A segment never contains `'/'`.
* The regular expressions `^COMMON_INDEX_PREFIX/([^/]+)/` (`BLOB_INDEX_ID_RE` of
  both vendors) become `matchIndexId` over segment lists: the name must start
  with the constant's segments, followed by one nonempty segment (the captured
  Index ID), followed by at least one further segment boundary (the trailing
  `/` of the pattern).
* The remote exclusion object (`EXCLUDED_INDICES_FILE`) is modelled as
  `Option (List String)`: `none` when the object is absent or unreadable
  (`download` with `ignore_error`, or the `except` branch of
  `get_excluded_indices`), `some l` when it holds the JSON array `l`.
* Per-blob cloud calls (`_set_tag`) are modelled by an outcome script
  (`BlobJob`): how many times the call reports the distinguished throttled
  outcome before returning a final non-throttled success or error.  The
  `while not self._set_tag(...)` retry loop consumes the throttles.  For the
  S3 adapter `_set_tag` never reports throttling, i.e. its jobs have
  `throttles = 0`.
* Tier labels stay strings ("Hot"/"Archive" after `str.capitalize`,
  "hot"/"archive" after `str.lower`), matching the comparisons in the code.
-/

namespace ArchiveCli

/-- A blob name, as its list of path segments (split on `'/'`). -/
abbrev BlobName := List String

/-- `BlobOperator.BLOB_TIER_ARCHIVE`. -/
def BLOB_TIER_ARCHIVE : String := "archive"

/-- `BlobOperator.BLOB_TIER_HOT`. -/
def BLOB_TIER_HOT : String := "hot"

/-- `BlobOperator.EXCLUDED_INDICES_FILE`, the fixed path of the remote
exclusion object. -/
def EXCLUDED_INDICES_FILE : String := "stellar_data_backup/stellar_excluded_indices"

/-- `S3Operator.COMMON_INDEX_PREFIX = 'stellar_data_backup//indices'`, as path
segments.  Note the empty middle segment: the Python constant contains a double
slash. -/
def s3CommonIndexPre : List String := ["stellar_data_backup", "", "indices"]

/-- `AzureBlobOperator.COMMON_INDEX_PREFIX = 'stellar_data_backup/indices'`, as
path segments. -/
def azureCommonIndexPre : List String := ["stellar_data_backup", "indices"]

/-- The default `--included-prefix` value `'stellar_data_backup/indices/'` of
every subcommand, as path segments (the trailing slash is the segment
boundary). -/
def defaultIncludedPre : List String := ["stellar_data_backup", "indices"]

/-- The regex `^P/([^/]+)/` applied to a segment-encoded name, `P` being the
segment-encoded vendor constant `COMMON_INDEX_PREFIX`: the name must carry the
constant's segments, then one nonempty segment (the captured Index ID,
`m.group(1)`), then at least one further segment.  `none` models "no match". -/
def matchIndexId : List String → BlobName → Option String
  | [], seg :: rest => if seg ≠ "" ∧ rest ≠ [] then some seg else none
  | [], [] => none
  | p :: ps, seg :: rest => if seg = p then matchIndexId ps rest else none
  | _ :: _, [] => none

/-- One character of Python's `str.lower()` for ASCII data (the only data the
program feeds it: tier labels such as "Archive"). -/
def lowerChar (c : Char) : Char :=
  if 'A' ≤ c ∧ c ≤ 'Z' then Char.ofNat (c.toNat + 32) else c

/-- Python's `str.lower()` on the ASCII tier labels used by the program. -/
def pyLower (s : String) : String := String.mk (s.data.map lowerChar)

/-- `BlobOperator.should_skip_index`: skip a blob exactly when the destination
tier lowercases to `'archive'` and its Index ID is in the downloaded exclusion
set. -/
def shouldSkipIndex (indexId : String) (dstTier : String) (excludedIndices : List String) :
    Bool :=
  pyLower dstTier = BLOB_TIER_ARCHIVE ∧ indexId ∈ excludedIndices

/-- Python `set.add` on a membership-checked list: the body of the loop in
`add_indices` (`add_excluded_indices`), which appends an ID to the JSON list
only when it is not already a member. -/
def insertNew (x : String) (xs : List String) : List String :=
  if x ∈ xs then xs else xs ++ [x]

/-- The `add_indices` closure of `BlobOperator.add_excluded_indices`: fold the
touched IDs over the stored list, appending each ID not already present. -/
def addIndices (ids : List String) (indices : List String) : List String :=
  ids.foldl (fun acc i => insertNew i acc) indices

/-- The `remove_indices` closure of `BlobOperator.remove_excluded_indices`:
fold the touched IDs over the stored list, deleting (first occurrence of) each
ID that is present. -/
def removeIndices (ids : List String) (indices : List String) : List String :=
  ids.foldl (fun acc i => if i ∈ acc then acc.erase i else acc) indices

/-- `BlobOperator._update_excluded_indices`: download the exclusion object
tolerating absence; when the local file exists apply the update closure to the
parsed list, otherwise take the empty list WITHOUT applying the closure; then
upload the resulting list.  The return value is the uploaded JSON array. -/
def updateExcludedIndicesWith (updateFn : List String → List String → List String)
    (ids : List String) (store : Option (List String)) : List String :=
  match store with
  | some indices => updateFn ids indices
  | none => []

/-- `BlobOperator.add_excluded_indices` (returns the uploaded array). -/
def addExcludedIndices (ids : List String) (store : Option (List String)) : List String :=
  updateExcludedIndicesWith addIndices ids store

/-- `BlobOperator.remove_excluded_indices` (returns the uploaded array). -/
def removeExcludedIndices (ids : List String) (store : Option (List String)) : List String :=
  updateExcludedIndicesWith removeIndices ids store

/-- `BlobOperator.update_excluded_index`: by lowercased destination tier,
`'hot'` adds the touched IDs, `'archive'` removes them, anything else performs
no upload at all (`none`).  `some l` is the array uploaded to
`EXCLUDED_INDICES_FILE`. -/
def updateExcludedIndex (indicesDiff : List String) (dstTier : String)
    (store : Option (List String)) : Option (List String) :=
  if pyLower dstTier = BLOB_TIER_HOT then some (addExcludedIndices indicesDiff store)
  else if pyLower dstTier = BLOB_TIER_ARCHIVE then
    some (removeExcludedIndices indicesDiff store)
  else none

/-- One blob of a `set_tag` batch together with the outcome script of its
`_set_tag` calls: the call reports the throttled outcome `throttles` times
(each one makes the `while not self._set_tag(...)` loop sleep and retry), then
returns with success (`ok = true`) or with a non-throttled error appended to
the error list (`ok = false`).  `S3Operator._set_tag` never reports throttling,
so S3 jobs have `throttles = 0`. -/
structure BlobJob where
  name : BlobName
  throttles : Nat
  ok : Bool
deriving DecidableEq

/-- The loop state of `set_tag` (both vendors): accumulated error entries
(identified by blob name), the `processed` counter, the total number of
`_set_tag` calls made (`attempts`, for the retry accounting), the names for
which a tag write was issued at all (`issued`) and issued successfully
(`tagged`), and the `indices_diff` set in first-insertion order. -/
structure SetTagAcc where
  errors : List BlobName
  processed : Nat
  attempts : Nat
  issued : List BlobName
  tagged : List BlobName
  indicesDiff : List String
deriving DecidableEq

/-- Initial `set_tag` loop state. -/
def initAcc : SetTagAcc :=
  { errors := [], processed := 0, attempts := 0, issued := [], tagged := [], indicesDiff := [] }

/-- One iteration of the `for blob in blobs` loop of `set_tag`: skip names not
matching `BLOB_INDEX_ID_RE`; record the matched Index ID in `indices_diff`;
skip excluded indices when exclusion is enabled; otherwise retry `_set_tag`
through the throttles and account the outcome. -/
def setTagStep (pre : List String) (dstTier : String) (enabled : Bool)
    (excluded : List String) (acc : SetTagAcc) (b : BlobJob) : SetTagAcc :=
  match matchIndexId pre b.name with
  | none => acc
  | some id =>
    let acc1 := { acc with indicesDiff := insertNew id acc.indicesDiff }
    if enabled && shouldSkipIndex id dstTier excluded then acc1
    else
      { acc1 with
        issued := acc1.issued ++ [b.name]
        tagged := if b.ok then acc1.tagged ++ [b.name] else acc1.tagged
        errors := if b.ok then acc1.errors else acc1.errors ++ [b.name]
        processed := acc1.processed + 1
        attempts := acc1.attempts + b.throttles + 1 }

/-- Result of a whole `set_tag` batch: the final loop state and the array
uploaded to `EXCLUDED_INDICES_FILE` (`none` when no upload happened). -/
structure SetTagResult where
  run : SetTagAcc
  uploaded : Option (List String)
deriving DecidableEq

/-- `set_tag` of both vendors (they differ only in `_set_tag`'s throttling
behaviour, carried by the jobs, and in the `COMMON_INDEX_PREFIX` argument
`pre`): download the exclusion set treating absence/read failure as empty, run
the per-blob loop, and afterwards — only if no error was recorded, exclusion
is enabled and `indices_diff` is nonempty — reconcile through
`update_excluded_index`. -/
def setTag (pre : List String) (dstTier : String) (enabled : Bool)
    (store : Option (List String)) (blobs : List BlobJob) : SetTagResult :=
  let excluded := store.getD []
  let run := blobs.foldl (setTagStep pre dstTier enabled excluded) initAcc
  let uploaded :=
    if run.errors = [] then
      if enabled = true ∧ run.indicesDiff ≠ [] then
        updateExcludedIndex run.indicesDiff dstTier store
      else none
    else none
  { run := run, uploaded := uploaded }

/-- The content of the remote exclusion object after a `set_tag` batch: the
uploaded array when an upload happened, the untouched previous object
otherwise. -/
def finalExclusionStore (store : Option (List String)) (r : SetTagResult) :
    Option (List String) :=
  match r.uploaded with
  | some l => some l
  | none => store

/-! ### Paginated listing (`get_blobs` of both vendors)

The subprocess transport is external (spec section 1); listing is modelled at
the capability level: the store holds an ordered list of entries, a request
with page size `n` returns consecutive pages of at most `n` entries, and every
page except the last carries a continuation cursor (`NextToken` /
`nextMarker`).  The `while found_next_marker` loop of `get_blobs` visits the
pages in cursor order, so the yielded names are the concatenation of the
per-page yields. -/

/-- The pages a paginated listing serves for a stored entry list and a page
size: consecutive chunks of at most `pageSize` entries. -/
def chunks (n : Nat) : List α → List (List α)
  | [] => []
  | x :: xs =>
    if _h : n = 0 then [] else (x :: xs).take n :: chunks n ((x :: xs).drop n)
termination_by l => l.length
decreasing_by
  simp only [List.length_drop]
  have hp : 0 < (x :: xs).length := by simp
  omega

/-- One listed S3 object: its key and its storage class, the fields
`S3Operator.get_blobs` reads from each `Contents` entry. -/
structure S3Entry where
  key : BlobName
  storageClass : String
deriving DecidableEq

/-- The per-page body of `S3Operator.get_blobs`: yield the key of every entry,
skipping (when `force` is unset) entries whose storage class differs from the
one expected for the source tier. -/
def s3PageNames (expected : String) (force : Bool) (page : List S3Entry) : List BlobName :=
  (page.filter fun e => force || e.storageClass == expected).map S3Entry.key

/-- `S3Operator.get_blobs`: follow continuation tokens through all pages of
the given page size, concatenating the per-page yields. -/
def s3GetBlobs (expected : String) (force : Bool) (entries : List S3Entry)
    (pageSize : Nat) : List BlobName :=
  ((chunks pageSize entries).map (s3PageNames expected force)).flatten

/-- `AzureBlobOperator.get_blobs`: the tier/prefix filter is part of the
server-side query, so the stored entries are already the names to yield;
follow `nextMarker` cursors through all pages, concatenating the yields. -/
def azGetBlobs (names : List BlobName) (pageSize : Nat) : List BlobName :=
  (chunks pageSize names).flatten

/-! ### Azure archive/restore (`set_tier` then `set_tag`)

Model for `AzureBlobOperator.archive` / `.restore`: the container is a list of
blobs, each with a name, a tier property and an optional `StellarBlobTier` tag
value.  Every storage call succeeds (no throttling, no errors), and a
`set-tier` call is immediately visible to subsequent listings. -/

/-- One Azure blob with its current tier property and `StellarBlobTier` tag. -/
structure AzBlob where
  name : BlobName
  tier : String
  tag : Option String
deriving DecidableEq

/-- The Azure container plus the remote exclusion object. -/
structure AzWorld where
  blobs : List AzBlob
  exclusion : Option (List String)
deriving DecidableEq

/-- Whether a name lies strictly under a string prefix ending in `'/'` (the
`--prefix` filter of the listing query): the name starts with the prefix
segments and continues past them. -/
def startsUnder : List String → BlobName → Bool
  | [], rest => !rest.isEmpty
  | p :: ps, seg :: rest => seg == p && startsUnder ps rest
  | _ :: _, [] => false

/-- `get_blobs` with the default included-prefix query
(`get_included_blobs_query`): names under the included prefix whose blob tier
equals the source tier (all of them when `force`). -/
def azListNames (includedPre : List String) (srcTier : String) (force : Bool)
    (blobs : List AzBlob) : List BlobName :=
  (blobs.filter fun b =>
    startsUnder includedPre b.name && (force || b.tier == srcTier)).map AzBlob.name

/-- Effect of `AzureBlobOperator.set_tier` on the container: every listed blob
gets the destination tier (all calls succeed). -/
def azSetTier (names : List BlobName) (dstTier : String) (blobs : List AzBlob) :
    List AzBlob :=
  blobs.map fun b => if b.name ∈ names then { b with tier := dstTier } else b

/-- Effect of the successful tag writes of a `set_tag` batch on the container:
every successfully tagged blob gets the destination tier label as its
`StellarBlobTier` tag. -/
def applyTag (names : List BlobName) (dstTier : String) (blobs : List AzBlob) :
    List AzBlob :=
  blobs.map fun b => if b.name ∈ names then { b with tag := some dstTier } else b

/-- `AzureBlobOperator.archive`: `src_tier, dst_tier = "Hot", "Archive"`;
list by source tier and set the tier of the result, then list by source tier
AGAIN (a second, fresh `get_blobs` generator with the same filter) and run the
`set_tag` flow on that second listing.  `archive` calls `set_tag` without
`excluded_indices_enabled`, so exclusion is disabled. -/
def azureArchive (includedPre : List String) (w : AzWorld) : AzWorld :=
  let names1 := azListNames includedPre "Hot" false w.blobs
  let blobs1 := azSetTier names1 "Archive" w.blobs
  let names2 := azListNames includedPre "Hot" false blobs1
  let r := setTag azureCommonIndexPre "Archive" false w.exclusion
      (names2.map fun nm => { name := nm, throttles := 0, ok := true })
  { blobs := applyTag r.run.tagged "Archive" blobs1
    exclusion := finalExclusionStore w.exclusion r }

/-- `AzureBlobOperator.restore`: as `azureArchive` with
`src_tier, dst_tier = "Archive", "Hot"`. -/
def azureRestore (includedPre : List String) (w : AzWorld) : AzWorld :=
  let names1 := azListNames includedPre "Archive" false w.blobs
  let blobs1 := azSetTier names1 "Hot" w.blobs
  let names2 := azListNames includedPre "Archive" false blobs1
  let r := setTag azureCommonIndexPre "Hot" false w.exclusion
      (names2.map fun nm => { name := nm, throttles := 0, ok := true })
  { blobs := applyTag r.run.tagged "Hot" blobs1
    exclusion := finalExclusionStore w.exclusion r }

/-- A one-blob world: a Hot blob under the default included prefix, currently
tagged `hot`, with no remote exclusion object. -/
def c2Blob : AzBlob :=
  { name := ["stellar_data_backup", "indices", "idx-1", "part-0"]
    tier := "Hot", tag := some "hot" }

/-- The world `azureArchive` is evaluated on for claim C2. -/
def c2World : AzWorld := { blobs := [c2Blob], exclusion := none }

/-! ### `get-prefix` (`do_get_prefix`) -/

/-- Python's `str.strip()` default whitespace test, for the ASCII inputs at
hand. -/
def isPySpace (c : Char) : Bool := c = ' ' ∨ c = '\t' ∨ c = '\n' ∨ c = '\r'

/-- Python's `str.strip()`: drop whitespace from both ends. -/
def pyStrip (s : String) : String :=
  String.mk (((s.data.dropWhile isPySpace).reverse.dropWhile isPySpace).reverse)

/-- Python's `str.split(sep)` for a one-character separator: splitting the
empty string yields `[""]`, and consecutive separators yield empty fields. -/
def splitChars (sep : Char) : List Char → List String
  | [] => [""]
  | c :: cs =>
    let rest := splitChars sep cs
    if c = sep then "" :: rest
    else
      match rest with
      | [] => [String.mk [c]]
      | r :: rs => String.mk (c :: r.data) :: rs

/-- Python's `str.split(sep)` on a string. -/
def pySplit (sep : Char) (s : String) : List String := splitChars sep s.data

/-- `index_id` is falsy in Python (`if not index_id`) when it is `None` or the
empty string. -/
def isMissingId (o : Option String) : Bool := o.getD "" = ""

/-- Outcome of `BlobOperator.do_get_prefix` on a successfully downloaded
metadata object: the `index_ids` list (one entry per requested name, `none`
for an unresolved name), the collected `missing_names`, and whether the
`failed to find index id` log line runs (it is guarded by
`if not index_ids:`). -/
structure GetPrefixRun where
  indexIds : List (Option String)
  missingNames : List String
  missingReported : Bool
deriving DecidableEq

/-- `BlobOperator.do_get_prefix`: split the requested names on commas after
stripping whitespace, look each one up in the metadata mapping
(`metadata['indices'][name]['id']`, modelled as an association list
name → id), appending the id — or `none` — to `index_ids` and recording falsy
ids in `missing_names`; the missing-names log runs only when `index_ids` is
empty. -/
def doGetPrefix (indices : List (String × String)) (indexNames : String) : GetPrefixRun :=
  let names := pySplit ',' (pyStrip indexNames)
  { indexIds := names.map fun n => indices.lookup n
    missingNames := names.filter fun n => isMissingId (indices.lookup n)
    missingReported := (names.map fun n => indices.lookup n).isEmpty }

/-- Whether `" ".join(index_ids)` in `get_prefix` succeeds: it raises
`TypeError` as soon as one entry is `None`. -/
def bashJoinOk (ids : List (Option String)) : Bool := ids.all fun o => o.isSome

/-! ### Characterization of the `set_tag` loop -/

/-- Whether one loop iteration of `set_tag` issues a tag write for the job:
its name must match `BLOB_INDEX_ID_RE` and it must not be skipped via the
exclusion set. -/
def blobIssuedB (pre : List String) (dstTier : String) (enabled : Bool)
    (excluded : List String) (b : BlobJob) : Bool :=
  match matchIndexId pre b.name with
  | none => false
  | some id => !(enabled && shouldSkipIndex id dstTier excluded)

theorem setTag_loop_spec (pre : List String) (dstTier : String) (enabled : Bool)
    (excluded : List String) (blobs : List BlobJob) (a : SetTagAcc) :
    blobs.foldl (setTagStep pre dstTier enabled excluded) a =
      { errors := a.errors ++
          (blobs.filter fun b => blobIssuedB pre dstTier enabled excluded b && !b.ok).map
            BlobJob.name
        processed := a.processed +
          (blobs.filter (blobIssuedB pre dstTier enabled excluded)).length
        attempts := a.attempts +
          ((blobs.filter (blobIssuedB pre dstTier enabled excluded)).map
            (fun b => b.throttles + 1)).sum
        issued := a.issued ++
          (blobs.filter (blobIssuedB pre dstTier enabled excluded)).map BlobJob.name
        tagged := a.tagged ++
          (blobs.filter fun b => blobIssuedB pre dstTier enabled excluded b && b.ok).map
            BlobJob.name
        indicesDiff :=
          (blobs.filterMap fun b => matchIndexId pre b.name).foldl
            (fun s i => insertNew i s) a.indicesDiff } := by
  induction blobs generalizing a with
  | nil => simp
  | cons b bs ih =>
    rw [List.foldl_cons]
    cases hm : matchIndexId pre b.name with
    | none =>
      have hstep : setTagStep pre dstTier enabled excluded a b = a := by
        simp [setTagStep, hm]
      have hiss : blobIssuedB pre dstTier enabled excluded b = false := by
        simp [blobIssuedB, hm]
      rw [hstep, ih]
      simp [List.filter_cons, List.filterMap_cons, hiss, hm]
    | some id =>
      cases hsk : enabled && shouldSkipIndex id dstTier excluded with
      | true =>
        have hstep : setTagStep pre dstTier enabled excluded a b =
            { a with indicesDiff := insertNew id a.indicesDiff } := by
          simp [setTagStep, hm, hsk]
        have hiss : blobIssuedB pre dstTier enabled excluded b = false := by
          simp [blobIssuedB, hm, hsk]
        rw [hstep, ih]
        simp [List.filter_cons, List.filterMap_cons, hiss, hm]
      | false =>
        have hiss : blobIssuedB pre dstTier enabled excluded b = true := by
          simp [blobIssuedB, hm, hsk]
        cases hok : b.ok with
        | true =>
          have hstep : setTagStep pre dstTier enabled excluded a b =
              { errors := a.errors, processed := a.processed + 1
                attempts := a.attempts + b.throttles + 1
                issued := a.issued ++ [b.name], tagged := a.tagged ++ [b.name]
                indicesDiff := insertNew id a.indicesDiff } := by
            simp [setTagStep, hm, hsk, hok]
          rw [hstep, ih]
          simp [List.filter_cons, List.filterMap_cons, hiss, hm, hok]
          omega
        | false =>
          have hstep : setTagStep pre dstTier enabled excluded a b =
              { errors := a.errors ++ [b.name], processed := a.processed + 1
                attempts := a.attempts + b.throttles + 1
                issued := a.issued ++ [b.name], tagged := a.tagged
                indicesDiff := insertNew id a.indicesDiff } := by
            simp [setTagStep, hm, hsk, hok]
          rw [hstep, ih]
          simp [List.filter_cons, List.filterMap_cons, hiss, hm, hok]
          omega

theorem setTag_run (pre : List String) (dstTier : String) (enabled : Bool)
    (store : Option (List String)) (blobs : List BlobJob) :
    (setTag pre dstTier enabled store blobs).run =
      blobs.foldl (setTagStep pre dstTier enabled (store.getD [])) initAcc := rfl

theorem setTag_uploaded (pre : List String) (dstTier : String) (enabled : Bool)
    (store : Option (List String)) (blobs : List BlobJob) :
    (setTag pre dstTier enabled store blobs).uploaded =
      if (setTag pre dstTier enabled store blobs).run.errors = [] then
        if enabled = true ∧ (setTag pre dstTier enabled store blobs).run.indicesDiff ≠ [] then
          updateExcludedIndex (setTag pre dstTier enabled store blobs).run.indicesDiff
            dstTier store
        else none
      else none := rfl

theorem shouldSkipIndex_eq_true {indexId dstTier : String} {ex : List String} :
    shouldSkipIndex indexId dstTier ex = true ↔
      pyLower dstTier = BLOB_TIER_ARCHIVE ∧ indexId ∈ ex := by
  simp [shouldSkipIndex]

theorem foldl_insertNew_eq_nil (l acc : List String) :
    l.foldl (fun s i => insertNew i s) acc = [] ↔ acc = [] ∧ l = [] := by
  induction l generalizing acc with
  | nil => simp
  | cons x xs ih =>
    rw [List.foldl_cons, ih]
    constructor
    · rintro ⟨h1, h2⟩
      exfalso
      by_cases hx : x ∈ acc
      · rw [insertNew, if_pos hx] at h1
        subst h1
        simp at hx
      · rw [insertNew, if_neg hx] at h1
        simp at h1
    · rintro ⟨h1, h2⟩
      exact absurd h2 (List.cons_ne_nil x xs)

theorem addIndices_mem (ids cur : List String) (x : String) :
    x ∈ addIndices ids cur ↔ x ∈ cur ∨ x ∈ ids := by
  induction ids generalizing cur with
  | nil => simp [addIndices]
  | cons i is ih =>
    rw [addIndices, List.foldl_cons]
    change x ∈ addIndices is (insertNew i cur) ↔ _
    rw [ih]
    by_cases hi : i ∈ cur
    · rw [insertNew, if_pos hi]
      simp only [List.mem_cons]
      constructor
      · rintro (hc | hs)
        · exact Or.inl hc
        · exact Or.inr (Or.inr hs)
      · rintro (hc | rfl | hs)
        · exact Or.inl hc
        · exact Or.inl hi
        · exact Or.inr hs
    · rw [insertNew, if_neg hi]
      simp only [List.mem_append, List.mem_singleton, List.mem_cons]
      tauto

theorem addIndices_suffix_new (ids cur : List String) :
    ∃ t, addIndices ids cur = cur ++ t ∧ ∀ x ∈ t, x ∈ ids ∧ x ∉ cur := by
  induction ids generalizing cur with
  | nil => exact ⟨[], by simp [addIndices], by simp⟩
  | cons i is ih =>
    by_cases hi : i ∈ cur
    · rcases ih cur with ⟨t, h1, h2⟩
      refine ⟨t, ?_, ?_⟩
      · rw [addIndices, List.foldl_cons]
        change addIndices is (insertNew i cur) = _
        rw [insertNew, if_pos hi]
        exact h1
      · intro x hx
        exact ⟨List.mem_cons_of_mem i (h2 x hx).1, (h2 x hx).2⟩
    · rcases ih (cur ++ [i]) with ⟨t, h1, h2⟩
      refine ⟨i :: t, ?_, ?_⟩
      · rw [addIndices, List.foldl_cons]
        change addIndices is (insertNew i cur) = _
        rw [insertNew, if_neg hi, h1]
        simp
      · intro x hx
        rcases List.mem_cons.mp hx with h | hx'
        · subst h
          exact ⟨List.mem_cons_self _ _, hi⟩
        · refine ⟨List.mem_cons_of_mem i (h2 x hx').1, fun hc => (h2 x hx').2 ?_⟩
          exact List.mem_append_left _ hc

theorem removeIndices_mem (ids cur : List String) (hnd : cur.Nodup) (x : String) :
    x ∈ removeIndices ids cur ↔ x ∈ cur ∧ x ∉ ids := by
  induction ids generalizing cur with
  | nil => simp [removeIndices]
  | cons i is ih =>
    rw [removeIndices, List.foldl_cons]
    change x ∈ removeIndices is (if i ∈ cur then cur.erase i else cur) ↔ _
    by_cases hi : i ∈ cur
    · rw [if_pos hi, ih _ (hnd.erase i), hnd.mem_erase_iff]
      simp only [List.mem_cons]
      tauto
    · rw [if_neg hi, ih _ hnd]
      simp only [List.mem_cons]
      constructor
      · rintro ⟨hc, hn⟩
        refine ⟨hc, ?_⟩
        rintro (rfl | hmem)
        · exact hi hc
        · exact hn hmem
      · rintro ⟨hc, hn⟩
        exact ⟨hc, fun hm => hn (Or.inr hm)⟩

theorem removeIndices_sublist (ids cur : List String) :
    List.Sublist (removeIndices ids cur) cur := by
  induction ids generalizing cur with
  | nil => simp [removeIndices]
  | cons i is ih =>
    rw [removeIndices, List.foldl_cons]
    change List.Sublist (removeIndices is (if i ∈ cur then cur.erase i else cur)) cur
    by_cases hi : i ∈ cur
    · rw [if_pos hi]
      exact (ih (cur.erase i)).trans (List.erase_sublist i cur)
    · rw [if_neg hi]
      exact ih cur

/-! ### Claims -/

/-- C1: for every `set_tag` batch of either vendor, if at least one per-blob
tagging operation fails with an unrecoverable (non-throttled) error, the
exclusion-object upload is not performed and the remote exclusion set is left
unchanged; the upload decision is taken only once, after the whole batch has
been folded. -/
theorem c1_error_batch_leaves_exclusion_set_unchanged
    (pre : List String) (dstTier : String) (enabled : Bool)
    (store : Option (List String)) (blobs : List BlobJob)
    (herr : (setTag pre dstTier enabled store blobs).run.errors ≠ []) :
    (setTag pre dstTier enabled store blobs).uploaded = none ∧
    finalExclusionStore store (setTag pre dstTier enabled store blobs) = store := by
  have hup : (setTag pre dstTier enabled store blobs).uploaded = none := by
    rw [setTag_uploaded, if_neg herr]
  exact ⟨hup, by simp [finalExclusionStore, hup]⟩

/-- C1 witness: a one-blob batch whose tag write fails leaves the stored
exclusion array `["idx-1"]` untouched. -/
theorem c1_witness :
    (setTag azureCommonIndexPre "Archive" true (some ["idx-1"])
        [{ name := ["stellar_data_backup", "indices", "idx-9", "p0"],
           throttles := 1, ok := false }]).run.errors ≠ [] ∧
    ((setTag azureCommonIndexPre "Archive" true (some ["idx-1"])
        [{ name := ["stellar_data_backup", "indices", "idx-9", "p0"],
           throttles := 1, ok := false }]).uploaded = none ∧
      finalExclusionStore (some ["idx-1"])
        (setTag azureCommonIndexPre "Archive" true (some ["idx-1"])
          [{ name := ["stellar_data_backup", "indices", "idx-9", "p0"],
             throttles := 1, ok := false }]) = some ["idx-1"]) :=
  ⟨by decide, c1_error_batch_leaves_exclusion_set_unchanged _ _ _ _ _ (by decide)⟩

/-- C3: for every blob of a `tag` batch with destination tier Archive whose
Index ID is a member of the downloaded exclusion set, the run with exclusion
enabled never issues its tag write, while the run with exclusion disabled
always issues it. -/
theorem c3_excluded_index_skipped_iff_enabled
    (pre : List String) (store : Option (List String)) (blobs : List BlobJob)
    (b : BlobJob) (hb : b ∈ blobs) (id : String)
    (hm : matchIndexId pre b.name = some id) (hex : id ∈ store.getD []) :
    b.name ∉ (setTag pre "Archive" true store blobs).run.issued ∧
    b.name ∈ (setTag pre "Archive" false store blobs).run.issued := by
  have hskip : shouldSkipIndex id "Archive" (store.getD []) = true :=
    shouldSkipIndex_eq_true.mpr ⟨by decide, hex⟩
  constructor
  · rw [setTag_run, setTag_loop_spec]
    simp only [initAcc, List.nil_append]
    intro hmem
    rcases List.mem_map.mp hmem with ⟨b', hb', hname⟩
    rcases List.mem_filter.mp hb' with ⟨hb'mem, hiss⟩
    have hm' : matchIndexId pre b'.name = some id := by
      show matchIndexId pre b'.name = some id
      rw [show b'.name = b.name from hname, hm]
    simp [blobIssuedB, hm', hskip] at hiss
  · rw [setTag_run, setTag_loop_spec]
    simp only [initAcc, List.nil_append]
    refine List.mem_map.mpr ⟨b, List.mem_filter.mpr ⟨hb, ?_⟩, rfl⟩
    simp [blobIssuedB, hm]

/-- C3 witness: a blob of index `idx-1` with stored exclusion set `["idx-1"]`
is skipped when exclusion is enabled and tagged when it is disabled. -/
theorem c3_witness :
    ({ name := ["stellar_data_backup", "indices", "idx-1", "p0"],
       throttles := 0, ok := true } : BlobJob) ∈
      [({ name := ["stellar_data_backup", "indices", "idx-1", "p0"],
          throttles := 0, ok := true } : BlobJob)] ∧
    matchIndexId azureCommonIndexPre
      ["stellar_data_backup", "indices", "idx-1", "p0"] = some "idx-1" ∧
    "idx-1" ∈ (some ["idx-1"] : Option (List String)).getD [] ∧
    (["stellar_data_backup", "indices", "idx-1", "p0"] ∉
        (setTag azureCommonIndexPre "Archive" true (some ["idx-1"])
          [{ name := ["stellar_data_backup", "indices", "idx-1", "p0"],
             throttles := 0, ok := true }]).run.issued ∧
      ["stellar_data_backup", "indices", "idx-1", "p0"] ∈
        (setTag azureCommonIndexPre "Archive" false (some ["idx-1"])
          [{ name := ["stellar_data_backup", "indices", "idx-1", "p0"],
             throttles := 0, ok := true }]).run.issued) :=
  ⟨by decide, by decide, by decide,
    c3_excluded_index_skipped_iff_enabled azureCommonIndexPre (some ["idx-1"])
      [{ name := ["stellar_data_backup", "indices", "idx-1", "p0"],
         throttles := 0, ok := true }]
      { name := ["stellar_data_backup", "indices", "idx-1", "p0"],
        throttles := 0, ok := true }
      (by decide) "idx-1" (by decide) (by decide)⟩

/-- C9: in a batch whose per-blob tag operations all match the index pattern
and all eventually succeed after some number of throttled attempts, no error
is recorded, the reported `processed` count equals the number of blobs, and
the number of `_set_tag` calls equals the sum over blobs of throttles plus the
final successful attempt (each throttle is retried after the fixed backoff). -/
theorem c9_throttled_retries_keep_processed_count
    (pre : List String) (dstTier : String) (store : Option (List String))
    (blobs : List BlobJob)
    (hmatch : ∀ b ∈ blobs, (matchIndexId pre b.name).isSome = true)
    (hok : ∀ b ∈ blobs, b.ok = true) :
    (setTag pre dstTier false store blobs).run.errors = [] ∧
    (setTag pre dstTier false store blobs).run.processed = blobs.length ∧
    (setTag pre dstTier false store blobs).run.attempts =
      (blobs.map fun b => b.throttles + 1).sum := by
  have hiss : ∀ b ∈ blobs, blobIssuedB pre dstTier false (store.getD []) b = true := by
    intro b hb
    have h1 := hmatch b hb
    cases hmm : matchIndexId pre b.name with
    | none => rw [hmm] at h1; simp at h1
    | some id => simp [blobIssuedB, hmm]
  have hfe : blobs.filter (blobIssuedB pre dstTier false (store.getD [])) = blobs :=
    List.filter_eq_self.mpr hiss
  have herr : (blobs.filter fun b =>
      blobIssuedB pre dstTier false (store.getD []) b && !b.ok) = [] := by
    refine List.filter_eq_nil_iff.mpr ?_
    intro b hb
    simp [hok b hb]
  refine ⟨?_, ?_, ?_⟩ <;> rw [setTag_run, setTag_loop_spec] <;> simp [initAcc, hfe, herr]

/-- C9 witness: two blobs throttled 2 and 0 times and then succeeding give no
errors, a processed count of 2 (not 4), and 4 total attempts. -/
theorem c9_witness :
    (∀ b ∈ [({ name := ["stellar_data_backup", "indices", "idx-1", "p0"],
               throttles := 2, ok := true } : BlobJob),
            { name := ["stellar_data_backup", "indices", "idx-2", "p1"],
               throttles := 0, ok := true }],
        (matchIndexId azureCommonIndexPre b.name).isSome = true) ∧
    (∀ b ∈ [({ name := ["stellar_data_backup", "indices", "idx-1", "p0"],
               throttles := 2, ok := true } : BlobJob),
            { name := ["stellar_data_backup", "indices", "idx-2", "p1"],
               throttles := 0, ok := true }], b.ok = true) ∧
    ((setTag azureCommonIndexPre "Archive" false none
        [{ name := ["stellar_data_backup", "indices", "idx-1", "p0"],
           throttles := 2, ok := true },
         { name := ["stellar_data_backup", "indices", "idx-2", "p1"],
           throttles := 0, ok := true }]).run.errors = [] ∧
      (setTag azureCommonIndexPre "Archive" false none
        [{ name := ["stellar_data_backup", "indices", "idx-1", "p0"],
           throttles := 2, ok := true },
         { name := ["stellar_data_backup", "indices", "idx-2", "p1"],
           throttles := 0, ok := true }]).run.processed = 2 ∧
      (setTag azureCommonIndexPre "Archive" false none
        [{ name := ["stellar_data_backup", "indices", "idx-1", "p0"],
           throttles := 2, ok := true },
         { name := ["stellar_data_backup", "indices", "idx-2", "p1"],
           throttles := 0, ok := true }]).run.attempts = 4) :=
  ⟨by decide, by decide,
    c9_throttled_retries_keep_processed_count azureCommonIndexPre "Archive" none _
      (by decide) (by decide)⟩

/-- C10: a `set_tag` run (destination tier one of the two labels the program
produces) uploads the exclusion object exactly when exclusion is enabled, the
batch recorded no tagging error, and at least one listed blob matched the
index path pattern; in every other case no upload happens. -/
theorem c10_upload_exactly_when_enabled_clean_and_matched
    (pre : List String) (dstTier : String) (enabled : Bool)
    (store : Option (List String)) (blobs : List BlobJob)
    (hdst : pyLower dstTier = BLOB_TIER_HOT ∨ pyLower dstTier = BLOB_TIER_ARCHIVE) :
    (setTag pre dstTier enabled store blobs).uploaded ≠ none ↔
      (enabled = true ∧ (setTag pre dstTier enabled store blobs).run.errors = [] ∧
        ∃ b ∈ blobs, (matchIndexId pre b.name).isSome = true) := by
  have hupd : ∀ ids, (updateExcludedIndex ids dstTier store).isSome = true := by
    intro ids
    rcases hdst with h | h
    · rw [updateExcludedIndex, if_pos h]
      rfl
    · rw [updateExcludedIndex, h, if_neg (by decide), if_pos rfl]
      rfl
  have hdiff : ((setTag pre dstTier enabled store blobs).run.indicesDiff ≠ []) ↔
      (∃ b ∈ blobs, (matchIndexId pre b.name).isSome = true) := by
    rw [setTag_run, setTag_loop_spec]
    simp only [initAcc]
    rw [ne_eq, foldl_insertNew_eq_nil]
    constructor
    · intro h
      by_contra hc
      push_neg at hc
      refine h ⟨rfl, List.filterMap_eq_nil_iff.mpr ?_⟩
      intro b hb
      have hbc := hc b hb
      cases hmm : matchIndexId pre b.name with
      | none => rfl
      | some id => rw [hmm] at hbc; simp at hbc
    · rintro ⟨b, hb, hsome⟩ hnil
      have := List.filterMap_eq_nil_iff.mp hnil.2 b hb
      rw [this] at hsome
      simp at hsome
  rw [setTag_uploaded]
  constructor
  · intro h
    by_cases he : (setTag pre dstTier enabled store blobs).run.errors = []
    · rw [if_pos he] at h
      by_cases hc : enabled = true ∧
          (setTag pre dstTier enabled store blobs).run.indicesDiff ≠ []
      · exact ⟨hc.1, he, hdiff.mp hc.2⟩
      · rw [if_neg hc] at h
        exact absurd rfl h
    · rw [if_neg he] at h
      exact absurd rfl h
  · rintro ⟨hen, he, hex⟩
    rw [if_pos he, if_pos ⟨hen, hdiff.mpr hex⟩]
    intro hnone
    have hs := hupd (setTag pre dstTier enabled store blobs).run.indicesDiff
    rw [hnone] at hs
    simp at hs

/-- C10 witness: an enabled, error-free batch with one matching blob over an
absent exclusion object performs an upload, and the characterization applies
to it. -/
theorem c10_witness :
    (pyLower "Hot" = BLOB_TIER_HOT ∨ pyLower "Hot" = BLOB_TIER_ARCHIVE) ∧
    ((setTag azureCommonIndexPre "Hot" true none
        [{ name := ["stellar_data_backup", "indices", "idx-1", "p0"],
           throttles := 0, ok := true }]).uploaded ≠ none ↔
      (true = true ∧ (setTag azureCommonIndexPre "Hot" true none
          [{ name := ["stellar_data_backup", "indices", "idx-1", "p0"],
             throttles := 0, ok := true }]).run.errors = [] ∧
        ∃ b ∈ [({ name := ["stellar_data_backup", "indices", "idx-1", "p0"],
                  throttles := 0, ok := true } : BlobJob)],
          (matchIndexId azureCommonIndexPre b.name).isSome = true)) :=
  ⟨by decide,
    c10_upload_exactly_when_enabled_clean_and_matched azureCommonIndexPre "Hot" true none _
      (by decide)⟩

/-- C5 counterexample: reconciling touched ID `idx-1` towards Hot when the
remote exclusion object is ABSENT uploads the empty array — the touched ID,
though not present in the (empty) current set, is not inserted, contradicting
the claimed diff semantics for every current exclusion set. -/
theorem c5_counterexample :
    updateExcludedIndex ["idx-1"] "Hot" none = some [] ∧
    "idx-1" ∉ (updateExcludedIndex ["idx-1"] "Hot" none).getD [] := by decide

/-- C5 (amended): when the remote exclusion object EXISTS with content `cur`
(a set, hence duplicate-free), reconciliation towards Hot uploads exactly
`cur` extended by the touched IDs not already present, and towards Archive
uploads exactly `cur` with the touched IDs deleted; when the object is absent,
the diff is skipped and the empty array is uploaded. -/
theorem c5_reconcile_diff_semantics (ids cur : List String) (hnd : cur.Nodup) :
    (updateExcludedIndex ids "Hot" (some cur) = some (addIndices ids cur) ∧
      (∀ x, x ∈ addIndices ids cur ↔ x ∈ cur ∨ x ∈ ids) ∧
      ∃ t, addIndices ids cur = cur ++ t ∧ ∀ x ∈ t, x ∈ ids ∧ x ∉ cur) ∧
    (updateExcludedIndex ids "Archive" (some cur) = some (removeIndices ids cur) ∧
      (∀ x, x ∈ removeIndices ids cur ↔ x ∈ cur ∧ x ∉ ids) ∧
      List.Sublist (removeIndices ids cur) cur) ∧
    updateExcludedIndex ids "Hot" none = some [] ∧
    updateExcludedIndex ids "Archive" none = some [] := by
  refine ⟨⟨?_, fun x => addIndices_mem ids cur x, addIndices_suffix_new ids cur⟩,
    ⟨?_, fun x => removeIndices_mem ids cur hnd x, removeIndices_sublist ids cur⟩, ?_, ?_⟩
  · rw [updateExcludedIndex, if_pos (by decide)]
    rfl
  · rw [updateExcludedIndex, if_neg (by decide), if_pos (by decide)]
    rfl
  · rw [updateExcludedIndex, if_pos (by decide)]
    rfl
  · rw [updateExcludedIndex, if_neg (by decide), if_pos (by decide)]
    rfl

/-- C5 witness: the amended diff semantics at touched IDs `["a", "b"]` over
stored set `["b", "c"]`. -/
theorem c5_witness :
    (["b", "c"] : List String).Nodup ∧
    ((updateExcludedIndex ["a", "b"] "Hot" (some ["b", "c"]) =
        some (addIndices ["a", "b"] ["b", "c"]) ∧
      (∀ x, x ∈ addIndices ["a", "b"] ["b", "c"] ↔ x ∈ ["b", "c"] ∨ x ∈ ["a", "b"]) ∧
      ∃ t, addIndices ["a", "b"] ["b", "c"] = ["b", "c"] ++ t ∧
        ∀ x ∈ t, x ∈ ["a", "b"] ∧ x ∉ ["b", "c"]) ∧
    (updateExcludedIndex ["a", "b"] "Archive" (some ["b", "c"]) =
        some (removeIndices ["a", "b"] ["b", "c"]) ∧
      (∀ x, x ∈ removeIndices ["a", "b"] ["b", "c"] ↔
        x ∈ ["b", "c"] ∧ x ∉ ["a", "b"]) ∧
      List.Sublist (removeIndices ["a", "b"] ["b", "c"]) ["b", "c"]) ∧
    updateExcludedIndex ["a", "b"] "Hot" none = some [] ∧
    updateExcludedIndex ["a", "b"] "Archive" none = some []) :=
  ⟨by decide, c5_reconcile_diff_semantics ["a", "b"] ["b", "c"] (by decide)⟩

/-- C7: adding an already-present Index ID through `add_excluded_indices`
uploads the stored array unchanged, and removing an absent ID through
`remove_excluded_indices` uploads it unchanged. -/
theorem c7_exclusion_add_remove_idempotent (x y : String) (cur : List String)
    (hx : x ∈ cur) (hy : y ∉ cur) :
    addExcludedIndices [x] (some cur) = cur ∧
    removeExcludedIndices [y] (some cur) = cur := by
  constructor
  · simp [addExcludedIndices, updateExcludedIndicesWith, addIndices, insertNew, hx]
  · simp [removeExcludedIndices, updateExcludedIndicesWith, removeIndices, hy]

/-- C7 witness: adding present `"a"` and removing absent `"b"` both leave the
stored array `["a", "c"]` unchanged. -/
theorem c7_witness :
    "a" ∈ (["a", "c"] : List String) ∧ "b" ∉ (["a", "c"] : List String) ∧
    (addExcludedIndices ["a"] (some ["a", "c"]) = ["a", "c"] ∧
      removeExcludedIndices ["b"] (some ["a", "c"]) = ["a", "c"]) :=
  ⟨by decide, by decide,
    c7_exclusion_add_remove_idempotent "a" "b" ["a", "c"] (by decide) (by decide)⟩

/-- C8 counterexample: a blob listed under the default included prefix
`stellar_data_backup/indices/` is attributed to its index by the Azure
pattern but NOT by the AWS pattern, whose `COMMON_INDEX_PREFIX` contains a
double slash (`stellar_data_backup//indices`). -/
theorem c8_counterexample :
    matchIndexId azureCommonIndexPre
      ["stellar_data_backup", "indices", "idx-1", "part-0"] = some "idx-1" ∧
    matchIndexId s3CommonIndexPre
      ["stellar_data_backup", "indices", "idx-1", "part-0"] = none := by decide

/-- C8 (amended): for every nonempty Index ID segment followed by at least one
further segment, a name formed from the vendor's own `COMMON_INDEX_PREFIX`
is matched by that vendor's pattern, which extracts the ID; names under the
default included prefix are attributed this way for Azure, but the AWS
pattern matches NO name under the default included prefix, since its constant
carries an empty path segment. -/
theorem c8_pattern_extraction (id : String) (rest : List String)
    (hid : id ≠ "") (hrest : rest ≠ []) :
    matchIndexId s3CommonIndexPre (s3CommonIndexPre ++ id :: rest) = some id ∧
    matchIndexId azureCommonIndexPre (azureCommonIndexPre ++ id :: rest) = some id ∧
    matchIndexId azureCommonIndexPre (defaultIncludedPre ++ id :: rest) = some id ∧
    ∀ tail, matchIndexId s3CommonIndexPre (defaultIncludedPre ++ tail) = none := by
  refine ⟨?_, ?_, ?_, ?_⟩
  · simp [s3CommonIndexPre, matchIndexId, hid, hrest]
  · simp [azureCommonIndexPre, matchIndexId, hid, hrest]
  · simp [azureCommonIndexPre, defaultIncludedPre, matchIndexId, hid, hrest]
  · intro tail
    simp [s3CommonIndexPre, defaultIncludedPre, matchIndexId]

/-- C8 witness: the amended pattern property at Index ID `idx-1` and suffix
`["part-0"]`. -/
theorem c8_witness :
    ("idx-1" : String) ≠ "" ∧ (["part-0"] : List String) ≠ [] ∧
    (matchIndexId s3CommonIndexPre (s3CommonIndexPre ++ "idx-1" :: ["part-0"]) =
        some "idx-1" ∧
      matchIndexId azureCommonIndexPre
        (azureCommonIndexPre ++ "idx-1" :: ["part-0"]) = some "idx-1" ∧
      matchIndexId azureCommonIndexPre
        (defaultIncludedPre ++ "idx-1" :: ["part-0"]) = some "idx-1" ∧
      ∀ tail, matchIndexId s3CommonIndexPre (defaultIncludedPre ++ tail) = none) :=
  ⟨by decide, by decide, c8_pattern_extraction "idx-1" ["part-0"] (by decide) (by decide)⟩

theorem chunks_flatten_map {α β : Type _} (n : Nat) (hn : 0 < n)
    (f : List α → List β) (hf : ∀ a b, f (a ++ b) = f a ++ f b) (l : List α) :
    ((chunks n l).map f).flatten = f l := by
  have hfnil : f [] = [] := by
    have h := hf [] []
    simp only [List.append_nil] at h
    have hl := congrArg List.length h
    simp only [List.length_append] at hl
    exact List.length_eq_zero.mp (by omega)
  suffices H : ∀ k (l : List α), l.length ≤ k → ((chunks n l).map f).flatten = f l from
    H l.length l le_rfl
  intro k
  induction k with
  | zero =>
    intro l hl
    have hnil : l = [] := by
      cases l with
      | nil => rfl
      | cons x xs => simp at hl
    subst hnil
    simp [chunks, hfnil]
  | succ k ih =>
    intro l hl
    cases l with
    | nil => simp [chunks, hfnil]
    | cons x xs =>
      rw [chunks, dif_neg (Nat.pos_iff_ne_zero.mp hn)]
      simp only [List.map_cons, List.flatten_cons]
      have hlen : ((x :: xs).drop n).length ≤ k := by
        simp only [List.length_drop, List.length_cons]
        simp only [List.length_cons] at hl
        omega
      rw [ih _ hlen, ← hf, List.take_append_drop]

/-- C6: for every stored entry list and every positive page size, the
paginated lister yields exactly the names of the (tier-filtered) full entry
list — independent of the page size, with no omission and no duplicate across
cursor boundaries (assuming the store lists distinct names) — for both the S3
and the Azure adapter. -/
theorem c6_pagination_page_size_invariant
    (expected : String) (force : Bool) (entries : List S3Entry)
    (azNames : List BlobName) (n : Nat) (hn : 0 < n)
    (hnd : (entries.map S3Entry.key).Nodup) :
    s3GetBlobs expected force entries n = s3PageNames expected force entries ∧
    (s3GetBlobs expected force entries n).Nodup ∧
    azGetBlobs azNames n = azNames := by
  have hdist : ∀ a b : List S3Entry,
      s3PageNames expected force (a ++ b) =
        s3PageNames expected force a ++ s3PageNames expected force b := by
    intro a b
    simp [s3PageNames, List.filter_append]
  have h1 : s3GetBlobs expected force entries n = s3PageNames expected force entries := by
    show ((chunks n entries).map (s3PageNames expected force)).flatten = _
    exact chunks_flatten_map n hn _ hdist entries
  refine ⟨h1, ?_, ?_⟩
  · rw [h1]
    have hsub : List.Sublist (s3PageNames expected force entries)
        (entries.map S3Entry.key) :=
      (List.filter_sublist entries).map S3Entry.key
    exact hnd.sublist hsub
  · have h2 := chunks_flatten_map n hn (fun x : List BlobName => x)
      (fun a b => rfl) azNames
    simpa [azGetBlobs] using h2

/-- C6 witness: three stored entries (one with a mismatched storage class)
listed with page size 2 yield exactly the two matching names, with no
duplicates, and the Azure lister returns its three names unchanged. -/
theorem c6_witness :
    0 < 2 ∧
    ([{ key := ["stellar_data_backup", "indices", "idx-1", "p0"],
        storageClass := "STANDARD" },
      { key := ["stellar_data_backup", "indices", "idx-1", "p1"],
        storageClass := "DEEP_ARCHIVE" },
      { key := ["stellar_data_backup", "indices", "idx-2", "p0"],
        storageClass := "STANDARD" }].map S3Entry.key).Nodup ∧
    (s3GetBlobs "STANDARD" false
        [{ key := ["stellar_data_backup", "indices", "idx-1", "p0"],
           storageClass := "STANDARD" },
         { key := ["stellar_data_backup", "indices", "idx-1", "p1"],
           storageClass := "DEEP_ARCHIVE" },
         { key := ["stellar_data_backup", "indices", "idx-2", "p0"],
           storageClass := "STANDARD" }] 2 =
      s3PageNames "STANDARD" false
        [{ key := ["stellar_data_backup", "indices", "idx-1", "p0"],
           storageClass := "STANDARD" },
         { key := ["stellar_data_backup", "indices", "idx-1", "p1"],
           storageClass := "DEEP_ARCHIVE" },
         { key := ["stellar_data_backup", "indices", "idx-2", "p0"],
           storageClass := "STANDARD" }] ∧
      (s3GetBlobs "STANDARD" false
        [{ key := ["stellar_data_backup", "indices", "idx-1", "p0"],
           storageClass := "STANDARD" },
         { key := ["stellar_data_backup", "indices", "idx-1", "p1"],
           storageClass := "DEEP_ARCHIVE" },
         { key := ["stellar_data_backup", "indices", "idx-2", "p0"],
           storageClass := "STANDARD" }] 2).Nodup ∧
      azGetBlobs [["a"], ["b"], ["c"]] 2 = [["a"], ["b"], ["c"]]) :=
  ⟨by decide, by decide,
    c6_pagination_page_size_invariant "STANDARD" false
      [{ key := ["stellar_data_backup", "indices", "idx-1", "p0"],
         storageClass := "STANDARD" },
       { key := ["stellar_data_backup", "indices", "idx-1", "p1"],
         storageClass := "DEEP_ARCHIVE" },
       { key := ["stellar_data_backup", "indices", "idx-2", "p0"],
         storageClass := "STANDARD" }]
      [["a"], ["b"], ["c"]] 2 (by decide) (by decide)⟩

/-- C2 (code bug): on a container holding one Hot blob under the default
included prefix currently tagged `hot`, with every storage call succeeding
and the tier property immediately visible, `azureArchive` moves the blob's
tier to Archive but never tags it — the second `get_blobs` generator filters
by the source tier Hot, which no blob carries any more, so the `set_tag`
batch is empty and tier (`Archive`) and tag (`hot`) disagree afterwards. -/
theorem c2_archive_sets_tier_but_never_tags :
    azListNames defaultIncludedPre "Hot" false c2World.blobs = [c2Blob.name] ∧
    (azureArchive defaultIncludedPre c2World).blobs =
      [{ name := ["stellar_data_backup", "indices", "idx-1", "part-0"],
         tier := "Archive", tag := some "hot" }] ∧
    (azureArchive defaultIncludedPre c2World).exclusion = none := by decide

/-- C4 (code bug): resolving `"a,c"` against metadata mapping `a` to `idx-1`
and `b` to `idx-2` yields `idx-1` and a missing marker and records `c` among
the missing names, but the `failed to find index id` report does NOT run: its
guard `if not index_ids:` tests the resolved-ids list, which always holds one
entry per requested name and is never empty.  A missing name still does not
abort resolution of the remaining names (`"c,a"` still resolves `idx-1`), and
the bash-join print raises on the `None` entry. -/
theorem c4_missing_name_recorded_but_never_reported :
    (doGetPrefix [("a", "idx-1"), ("b", "idx-2")] "a,c").indexIds =
      [some "idx-1", none] ∧
    (doGetPrefix [("a", "idx-1"), ("b", "idx-2")] "a,c").missingNames = ["c"] ∧
    (doGetPrefix [("a", "idx-1"), ("b", "idx-2")] "a,c").missingReported = false ∧
    (doGetPrefix [("a", "idx-1"), ("b", "idx-2")] "c,a").indexIds =
      [none, some "idx-1"] ∧
    bashJoinOk (doGetPrefix [("a", "idx-1"), ("b", "idx-2")] "a,c").indexIds = false := by
  decide

end ArchiveCli
